import Mathlib

/-!
Shallow embedding of the dive-log application (opsabarsec/dive-log-app).

The embedding follows the TypeScript sources:
* `src/lib/geocoding.ts` — `searchLocation`, `reverseGeocode`
* `src/lib/search.ts` — `searchClubWebsite`, `isValidUrl`, `formatUrl`
* the `/api/search-club` route — DuckDuckGo first-result extraction
* `src/convex/dives.ts` — the `upsertDive` mutation (first module) and the
  `getDiveStats` query (second module)

Network effects are modelled by passing the provider's response explicitly:
each wrapper receives the outcome of its single `fetch` as a value of an
inductive response type (transport failure / non-ok HTTP status / parsed
payload).  Thrown JS exceptions are modelled with `Except`; functions that
catch every exception and return `null` (like `searchClubWebsite`) return
`Option` with no error case, exactly as no caller of theirs can observe a
throw.  JS numbers are modelled as `Int` (no claim depends on fractional or
floating-point behaviour).
-/

namespace DiveLog

/-! ### JS string primitives

The TypeScript sources use `trim()`, `startsWith()`, `length` and
`slice`-style operations.  They are modelled here on the character list so
that every definition evaluates inside the kernel (JS `trim` strips
whitespace on both ends; the inputs in scope are ASCII, so `length` agrees
with the character count). -/

def jsIsSpace (c : Char) : Bool :=
  c = ' ' || c = '\t' || c = '\n' || c = '\r'

/-- `s.trim()`. -/
def jsTrim (s : String) : String :=
  String.mk (((s.toList.dropWhile jsIsSpace).reverse.dropWhile jsIsSpace).reverse)

/-- `s.startsWith(p)`. -/
def jsStartsWith (s p : String) : Bool :=
  p.toList.isPrefixOf s.toList

/-- `s.length`. -/
def jsLength (s : String) : Nat :=
  s.toList.length

/-- `s.slice(n)` / dropping the first `n` characters. -/
def jsDrop (s : String) (n : Nat) : String :=
  String.mk (s.toList.drop n)

/-! ### Geocoding (`src/lib/geocoding.ts`) -/

/-- One element of the Geoapify `features` array, restricted to the
properties the wrappers read (`lat`, `lon`, `name`, `formatted`, `city`,
`country`, `state`).  `name` is `Option` because the provider may omit it;
an empty string is also treated as falsy by the source's `||`. -/
structure GeoFeature where
  lat : Int
  lon : Int
  name : Option String
  formatted : String
  city : Option String
  country : Option String
  state : Option String
deriving DecidableEq, Repr

/-- `GeocodingResult` from `src/lib/types/location.ts` (the optional
`address` object is flattened into its three optional components). -/
structure GeocodingResult where
  lat : Int
  lon : Int
  name : String
  display_name : String
  city : Option String
  country : Option String
  state : Option String
deriving DecidableEq, Repr

/-- Outcome of the single `fetch` to the Geoapify endpoint:
`netError` models a rejected fetch (thrown exception), `httpError` models
`!response.ok`, `ok` carries the parsed `features` array (a missing
`features` field is modelled as `[]`, matching `data.features || []`). -/
inductive GeoResponse where
  | netError : GeoResponse
  | httpError (statusText : String) : GeoResponse
  | ok (features : List GeoFeature) : GeoResponse
deriving DecidableEq, Repr

/-- The per-feature mapping shared by `searchLocation` and `reverseGeocode`:
`name: feature.properties.name || feature.properties.formatted`, etc. -/
def mapFeature (f : GeoFeature) : GeocodingResult :=
  { lat := f.lat
    lon := f.lon
    name := match f.name with
            | some n => if n = "" then f.formatted else n
            | none => f.formatted
    display_name := f.formatted
    city := f.city
    country := f.country
    state := f.state }

/-- `searchLocation` from `src/lib/geocoding.ts`.  The missing API key check
comes first; then the short-query guard returns `[]` before any fetch; a
rejected fetch or non-ok response is re-thrown after logging. -/
def searchLocation (apiKey : Option String) (query : String)
    (resp : GeoResponse) : Except String (List GeocodingResult) :=
  match apiKey with
  | none => .error "Geoapify API key not configured"
  | some _ =>
      if query = "" || jsLength (jsTrim query) < 2 then
        .ok []
      else
        match resp with
        | .netError => .error "network error"
        | .httpError st => .error ("Geocoding API error: " ++ st)
        | .ok features => .ok (features.map mapFeature)

/-- `reverseGeocode` from `src/lib/geocoding.ts`.  A successful response
with a missing or empty `features` array yields `null`; otherwise the first
feature is mapped. -/
def reverseGeocode (apiKey : Option String)
    (resp : GeoResponse) : Except String (Option GeocodingResult) :=
  match apiKey with
  | none => .error "Geoapify API key not configured"
  | some _ =>
      match resp with
      | .netError => .error "network error"
      | .httpError st => .error ("Reverse geocoding API error: " ++ st)
      | .ok features =>
          match features with
          | [] => .ok none
          | f :: _ => .ok (some (mapFeature f))

/-! ### Club-website search (`src/lib/search.ts`) -/

/-- `SearchResult` from `src/lib/search.ts`. -/
structure SearchResult where
  url : String
  title : String
  snippet : Option String
deriving DecidableEq, Repr

/-- Outcome of the `fetch("/api/search-club?q=...")` call as observed by
`searchClubWebsite`: a thrown fetch, a non-ok status, or parsed JSON with a
`success` flag and an optional `url` string. -/
inductive ApiResponse where
  | netError : ApiResponse
  | httpError (status : Nat) : ApiResponse
  | ok (success : Bool) (url : Option String) : ApiResponse
deriving DecidableEq, Repr

/-- `searchClubWebsite` from `src/lib/search.ts`.  Every failure path —
empty/whitespace name, HTTP error, missing URL, thrown exception — returns
`null`; the function has no error outcome at all (its `catch` swallows
everything). `data.success && data.url` requires `success` to be `true`
and `url` to be a present, non-empty string. -/
def searchClubWebsite (clubName : String)
    (resp : ApiResponse) : Option SearchResult :=
  if clubName = "" || jsLength (jsTrim clubName) = 0 then
    none
  else
    match resp with
    | .netError => none
    | .httpError _ => none
    | .ok success url =>
        if success then
          match url with
          | some u => if u = "" then none
                      else some { url := u, title := clubName, snippet := none }
          | none => none
        else none

/-- `formatUrl` from `src/lib/search.ts`. -/
def formatUrl (url : String) : String :=
  if url = "" then ""
  else
    let trimmed := jsTrim url
    if jsStartsWith trimmed "http://" || jsStartsWith trimmed "https://" then
      trimmed
    else
      "https://" ++ trimmed

/-! ### The `/api/search-club` route (DuckDuckGo extraction)

The route fetches the DuckDuckGo HTML page and applies two regular
expressions.  We model the page by the two capture results the route can
see: the `href` of the first `<a class="result__a">` anchor and the text of
the first `class="result__url"` element. The post-processing of each
capture is embedded faithfully below. -/

/-- The two captures the route's regexes can produce from the fetched
HTML page. -/
structure DdgPage where
  resultAnchorHref : Option String
  resultUrlText : Option String
deriving DecidableEq, Repr

/-- Value of a hexadecimal digit character. -/
def hexDigitVal (c : Char) : Option Nat :=
  if '0' ≤ c ∧ c ≤ '9' then some (c.toNat - '0'.toNat)
  else if 'a' ≤ c ∧ c ≤ 'f' then some (c.toNat - 'a'.toNat + 10)
  else if 'A' ≤ c ∧ c ≤ 'F' then some (c.toNat - 'A'.toNat + 10)
  else none

/-- `decodeURIComponent`, modelled for single-byte `%XX` escapes (the only
form the claims exercise); a malformed escape is kept verbatim. -/
def percentDecodeAux : List Char → List Char
  | [] => []
  | '%' :: a :: b :: rest =>
      match hexDigitVal a, hexDigitVal b with
      | some ha, some hb => Char.ofNat (16 * ha + hb) :: percentDecodeAux rest
      | _, _ => '%' :: percentDecodeAux (a :: b :: rest)
  | c :: rest => c :: percentDecodeAux rest

def percentDecode (s : String) : String :=
  String.mk (percentDecodeAux s.toList)

/-- `url.match(/uddg=([^&]+)/)`: the first occurrence of `uddg=` followed by
a non-empty run of non-`&` characters, returning that run. -/
def findUddgAux : List Char → Option (List Char)
  | [] => none
  | c :: rest =>
      if c = 'u' ∧ rest.take 4 = ['d', 'd', 'g', '='] then
        let cap := (rest.drop 4).takeWhile (fun ch => ch ≠ '&')
        if cap.isEmpty then findUddgAux rest else some cap
      else findUddgAux rest

def matchUddg (url : String) : Option String :=
  (findUddgAux url.toList).map fun cs => String.mk cs

/-- The redirect-unwrapping step of the route: if the href carries a
`uddg=` parameter, the decoded parameter replaces the href. -/
def unwrapDdgRedirect (href : String) : String :=
  match matchUddg href with
  | some cap => percentDecode cap
  | none => href

/-- `url.replace(/^\x2f\x2f/, "https://")`: a protocol-relative URL gets the
`https` scheme; anything else (including a bare domain) is unchanged. -/
def fixProtocolRelative (url : String) : String :=
  if jsStartsWith url "//" then "https://" ++ jsDrop url 2 else url

/-- Post-processing of the primary `result__a` href capture. -/
def processResultAnchor (href : String) : String :=
  fixProtocolRelative (unwrapDdgRedirect href)

/-- Post-processing of the fallback `result__url` text capture:
trim, then prefix `https://` unless the text already starts with `http`. -/
def processResultUrlText (txt : String) : String :=
  let url := jsTrim txt
  if jsStartsWith url "http" then url else "https://" ++ url

/-- The route's result extraction: the primary anchor pattern wins; the
`result__url` text is the fallback; with neither, the route answers 404
(`none` here). -/
def searchRouteUrl (page : DdgPage) : Option String :=
  match page.resultAnchorHref with
  | some href => some (processResultAnchor href)
  | none =>
      match page.resultUrlText with
      | some txt => some (processResultUrlText txt)
      | none => none

/-- A URL is fully qualified when it carries an explicit http(s) scheme. -/
def isFullyQualified (u : String) : Bool :=
  jsStartsWith u "http://" || jsStartsWith u "https://"

end DiveLog

namespace DiveLog

/-! ### The `upsertDive` mutation (`src/convex/dives.ts`, first module)

Arguments follow the mutation's `args` validator: required fields are plain
(the Convex layer rejects a submission missing one before the handler
runs), optional fields are `Option` (`none` models an omitted key — Convex
strips `undefined`, so an omitted optional argument is simply absent from
the `args` object and is therefore not part of the later `patch`). -/

structure DiveArgs where
  user_id : String
  dive_number : Int
  dive_date : Int
  location : String
  latitude : Option Int
  longitude : Option Int
  osm_link : Option String
  site : Option String
  duration : Int
  max_depth : Int
  temperature : Option Int
  visibility : Option Int
  weather : Option String
  suit_thickness : Option Int
  lead_weights : Option Int
  club_name : String
  instructor_name : String
  photo_storage_id : String
  club_website : Option String
  notes : Option String
  Buddy_check : Bool
  Briefed : Bool
deriving DecidableEq, Repr

/-- A stored document of the `dives` table as written by `upsertDive`:
the argument fields plus the storage-assigned `_id` and the bookkeeping
timestamps `logged_at` / `updated_at`. -/
structure Dive where
  _id : Nat
  user_id : String
  dive_number : Int
  dive_date : Int
  location : String
  latitude : Option Int
  longitude : Option Int
  osm_link : Option String
  site : Option String
  duration : Int
  max_depth : Int
  temperature : Option Int
  visibility : Option Int
  weather : Option String
  suit_thickness : Option Int
  lead_weights : Option Int
  club_name : String
  instructor_name : String
  photo_storage_id : String
  club_website : Option String
  notes : Option String
  Buddy_check : Bool
  Briefed : Bool
  logged_at : Int
  updated_at : Int
deriving DecidableEq, Repr

/-- The `dives` table: the stored documents plus the next fresh `_id`
(Convex assigns document ids; we model them as consecutive naturals). -/
structure DB where
  records : List Dive
  nextId : Nat
deriving DecidableEq, Repr

/-- The index predicate of
`withIndex("by_dive_number", q => q.eq("user_id", uid).eq("dive_number", n))`. -/
def keyMatches (uid : String) (n : Int) (d : Dive) : Bool :=
  d.user_id = uid && d.dive_number = n

/-- The indexed query: every document matching the compound key. -/
def queryByKey (db : DB) (uid : String) (n : Int) : List Dive :=
  db.records.filter (keyMatches uid n)

/-- `.unique()`: `null` on zero matches, the document on one, a thrown
error on several. -/
def uniqueResult : List Dive → Except String (Option Dive)
  | [] => .ok none
  | [d] => .ok (some d)
  | _ :: _ :: _ => .error "unique: query returned more than one document"

/-- `ctx.db.patch(existing._id, { ...args, updated_at: now })`: every field
present in `args` overwrites the stored one; an omitted optional field is
not in the patch, so the stored value survives; `logged_at` is never in the
patch; `updated_at` is set to `now`. -/
def patchDive (e : Dive) (a : DiveArgs) (now : Int) : Dive :=
  { _id := e._id
    user_id := a.user_id
    dive_number := a.dive_number
    dive_date := a.dive_date
    location := a.location
    latitude := match a.latitude with | some v => some v | none => e.latitude
    longitude := match a.longitude with | some v => some v | none => e.longitude
    osm_link := match a.osm_link with | some v => some v | none => e.osm_link
    site := match a.site with | some v => some v | none => e.site
    duration := a.duration
    max_depth := a.max_depth
    temperature := match a.temperature with | some v => some v | none => e.temperature
    visibility := match a.visibility with | some v => some v | none => e.visibility
    weather := match a.weather with | some v => some v | none => e.weather
    suit_thickness := match a.suit_thickness with | some v => some v | none => e.suit_thickness
    lead_weights := match a.lead_weights with | some v => some v | none => e.lead_weights
    club_name := a.club_name
    instructor_name := a.instructor_name
    photo_storage_id := a.photo_storage_id
    club_website := match a.club_website with | some v => some v | none => e.club_website
    notes := match a.notes with | some v => some v | none => e.notes
    Buddy_check := a.Buddy_check
    Briefed := a.Briefed
    logged_at := e.logged_at
    updated_at := now }

/-- `ctx.db.insert("dives", { ...args, logged_at: now, updated_at: now })`. -/
def insertDive (a : DiveArgs) (now : Int) (newId : Nat) : Dive :=
  { _id := newId
    user_id := a.user_id
    dive_number := a.dive_number
    dive_date := a.dive_date
    location := a.location
    latitude := a.latitude
    longitude := a.longitude
    osm_link := a.osm_link
    site := a.site
    duration := a.duration
    max_depth := a.max_depth
    temperature := a.temperature
    visibility := a.visibility
    weather := a.weather
    suit_thickness := a.suit_thickness
    lead_weights := a.lead_weights
    club_name := a.club_name
    instructor_name := a.instructor_name
    photo_storage_id := a.photo_storage_id
    club_website := a.club_website
    notes := a.notes
    Buddy_check := a.Buddy_check
    Briefed := a.Briefed
    logged_at := now
    updated_at := now }

/-- The result object of the mutation: `{ id, action }`. -/
structure UpsertOutcome where
  id : Nat
  action : String
deriving DecidableEq, Repr

/-- The `upsertDive` handler: look up the compound key with `.unique()`;
if a document exists, patch it (spreading `args` and `updated_at`) and
report `"updated"`; otherwise insert a fresh document with both timestamps
set to `now` and report `"inserted"`.  The handler performs no field
validation of its own. -/
def upsertDive (a : DiveArgs) (now : Int) (db : DB) :
    Except String (DB × UpsertOutcome) :=
  match uniqueResult (queryByKey db a.user_id a.dive_number) with
  | .error e => .error e
  | .ok (some existing) =>
      .ok ({ db with
               records := db.records.map fun d =>
                 if d._id = existing._id then patchDive existing a now else d },
           { id := existing._id, action := "updated" })
  | .ok none =>
      .ok ({ records := db.records ++ [insertDive a now db.nextId],
             nextId := db.nextId + 1 },
           { id := db.nextId, action := "inserted" })

/-- Run a finite sequence of upsert submissions (each with its own clock
value) against the store, propagating a thrown `.unique()` error. -/
def runUpserts : List (DiveArgs × Int) → DB → Except String DB
  | [], db => .ok db
  | (a, t) :: ops, db =>
      match upsertDive a t db with
      | .error e => .error e
      | .ok (db', _) => runUpserts ops db'

/-- Two documents collide when they agree on the compound natural key. -/
def sameKey (d1 d2 : Dive) : Prop :=
  d1.user_id = d2.user_id ∧ d1.dive_number = d2.dive_number

instance : DecidablePred fun p : Dive × Dive => sameKey p.1 p.2 :=
  fun _ => by unfold sameKey; infer_instance

instance sameKeyDecidable (d1 d2 : Dive) : Decidable (sameKey d1 d2) := by
  unfold sameKey; infer_instance

/-- The spec's key-uniqueness property: no two stored documents share an
`(owner, sequence number)` pair. -/
def atMostOnePerKey (l : List Dive) : Prop :=
  l.Pairwise fun d1 d2 => ¬ sameKey d1 d2

/-- Well-formedness of the store as Convex maintains it: key uniqueness,
distinct document ids, and every id below the fresh-id counter. -/
def WF (db : DB) : Prop :=
  atMostOnePerKey db.records ∧
  db.records.Pairwise (fun d1 d2 => d1._id ≠ d2._id) ∧
  ∀ d ∈ db.records, d._id < db.nextId

instance (db : DB) : Decidable (WF db) := by
  unfold WF atMostOnePerKey; infer_instance

end DiveLog

namespace DiveLog

/-! ### Helper lemmas about the store -/

/-- The compound natural key of a stored document. -/
def diveKey (d : Dive) : String × Int :=
  (d.user_id, d.dive_number)

theorem sameKey_iff {d1 d2 : Dive} : sameKey d1 d2 ↔ diveKey d1 = diveKey d2 := by
  simp [sameKey, diveKey, Prod.ext_iff]

theorem keyMatches_iff {uid : String} {n : Int} {d : Dive} :
    keyMatches uid n d = true ↔ d.user_id = uid ∧ d.dive_number = n := by
  simp [keyMatches]

/-- Under key uniqueness, the indexed query returns zero or one document,
so `.unique()` never throws. -/
theorem filter_atMostOne (uid : String) (n : Int) (l : List Dive)
    (h : atMostOnePerKey l) :
    l.filter (keyMatches uid n) = [] ∨ ∃ e, l.filter (keyMatches uid n) = [e] := by
  induction l with
  | nil => exact Or.inl rfl
  | cons d l ih =>
    rcases List.pairwise_cons.mp h with ⟨hd, hl⟩
    by_cases hm : keyMatches uid n d = true
    · right
      refine ⟨d, ?_⟩
      rw [List.filter_cons_of_pos hm]
      have hnil : l.filter (keyMatches uid n) = [] := by
        cases hfe : l.filter (keyMatches uid n) with
        | nil => rfl
        | cons e es =>
          exfalso
          have he : e ∈ l.filter (keyMatches uid n) := by
            rw [hfe]; exact List.mem_cons_self _ _
          have hel : e ∈ l := (List.mem_filter.mp he).1
          have hem := keyMatches_iff.mp (List.mem_filter.mp he).2
          have hdm := keyMatches_iff.mp hm
          exact hd e hel ⟨hdm.1.trans hem.1.symm, hdm.2.trans hem.2.symm⟩
      rw [hnil]
    · rw [List.filter_cons_of_neg hm]
      exact ih hl

/-- Documents of an id-distinct store are determined by their id. -/
theorem id_unique {l : List Dive}
    (hids : l.Pairwise fun d1 d2 => d1._id ≠ d2._id)
    {d e : Dive} (hd : d ∈ l) (he : e ∈ l) (h : d._id = e._id) : d = e := by
  induction l with
  | nil => cases hd
  | cons x l ih =>
    rcases List.pairwise_cons.mp hids with ⟨hx, hl⟩
    rcases List.mem_cons.mp hd with rfl | hd'
    · rcases List.mem_cons.mp he with rfl | he'
      · rfl
      · exact absurd h (hx e he')
    · rcases List.mem_cons.mp he with rfl | he'
      · exact absurd h.symm (hx d hd')
      · exact ih hl hd' he'

theorem map_id_of {α : Type} {l : List α} {f : α → α}
    (h : ∀ a ∈ l, f a = a) : l.map f = l := by
  induction l with
  | nil => rfl
  | cons x l ih =>
    simp only [List.map_cons]
    rw [h x (List.mem_cons_self _ _), ih fun a ha => h a (List.mem_cons_of_mem _ ha)]

/-- Patching the unique key-matching document by id leaves the store with
exactly that patched document under the key. -/
theorem filter_map_patch (uid : String) (n : Int) (l : List Dive) (e x : Dive)
    (hfilter : l.filter (keyMatches uid n) = [e])
    (hids : l.Pairwise fun d1 d2 => d1._id ≠ d2._id)
    (hx : keyMatches uid n x = true) (hxid : x._id = e._id) :
    (l.map fun d => if d._id = e._id then x else d).filter (keyMatches uid n)
      = [x] := by
  induction l with
  | nil => simp at hfilter
  | cons d l ih =>
    rcases List.pairwise_cons.mp hids with ⟨hd, hl⟩
    by_cases hm : keyMatches uid n d = true
    · rw [List.filter_cons_of_pos hm] at hfilter
      injection hfilter with h1 h2
      subst h1
      simp only [List.map_cons, eq_self_iff_true, if_true]
      rw [List.filter_cons_of_pos hx]
      have hfixed : ∀ d' ∈ l, (if d'._id = d._id then x else d') = d' := by
        intro d' hd'
        exact if_neg fun hcontra => (hd d' hd') hcontra.symm
      rw [map_id_of hfixed, h2]
    · rw [List.filter_cons_of_neg hm] at hfilter
      have hel : e ∈ l := by
        have : e ∈ l.filter (keyMatches uid n) := by
          rw [hfilter]; exact List.mem_cons_self _ _
        exact (List.mem_filter.mp this).1
      simp only [List.map_cons]
      rw [if_neg (hd e hel), List.filter_cons_of_neg hm]
      exact ih hfilter hl

/-- The found branch of the handler, as an equation. -/
theorem upsert_found_eq (db : DB) (a : DiveArgs) (now : Int) (e : Dive)
    (hfind : queryByKey db a.user_id a.dive_number = [e]) :
    upsertDive a now db =
      .ok ({ db with records := db.records.map fun d =>
               if d._id = e._id then patchDive e a now else d },
           { id := e._id, action := "updated" }) := by
  unfold upsertDive
  rw [hfind]
  rfl

/-- The not-found branch of the handler, as an equation. -/
theorem upsert_notfound_eq (db : DB) (a : DiveArgs) (now : Int)
    (hfind : queryByKey db a.user_id a.dive_number = []) :
    upsertDive a now db =
      .ok ({ records := db.records ++ [insertDive a now db.nextId],
             nextId := db.nextId + 1 },
           { id := db.nextId, action := "inserted" }) := by
  unfold upsertDive
  rw [hfind]
  rfl

theorem patchDive_keyMatches (e : Dive) (a : DiveArgs) (now : Int) :
    keyMatches a.user_id a.dive_number (patchDive e a now) = true := by
  simp [keyMatches, patchDive]

theorem insertDive_keyMatches (a : DiveArgs) (now : Int) (newId : Nat) :
    keyMatches a.user_id a.dive_number (insertDive a now newId) = true := by
  simp [keyMatches, insertDive]

/-- The patch branch preserves well-formedness of the store. -/
theorem WF_patch (db : DB) (a : DiveArgs) (now : Int) (e : Dive)
    (hWF : WF db) (hfind : queryByKey db a.user_id a.dive_number = [e]) :
    WF { db with records := db.records.map fun d =>
           if d._id = e._id then patchDive e a now else d } := by
  obtain ⟨hkeys, hids, hbound⟩ := hWF
  have hel : e ∈ db.records := by
    have : e ∈ db.records.filter (keyMatches a.user_id a.dive_number) := by
      rw [show db.records.filter (keyMatches a.user_id a.dive_number) = [e] from hfind]
      exact List.mem_cons_self _ _
    exact (List.mem_filter.mp this).1
  have hekey : e.user_id = a.user_id ∧ e.dive_number = a.dive_number := by
    have : e ∈ db.records.filter (keyMatches a.user_id a.dive_number) := by
      rw [show db.records.filter (keyMatches a.user_id a.dive_number) = [e] from hfind]
      exact List.mem_cons_self _ _
    exact keyMatches_iff.mp (List.mem_filter.mp this).2
  have hid_pt : ∀ d : Dive,
      (if d._id = e._id then patchDive e a now else d)._id = d._id := by
    intro d
    by_cases h : d._id = e._id
    · rw [if_pos h]; exact h.symm
    · rw [if_neg h]
  have hkey_pt : ∀ d ∈ db.records,
      diveKey (if d._id = e._id then patchDive e a now else d) = diveKey d := by
    intro d hd
    by_cases h : d._id = e._id
    · rw [if_pos h]
      have : d = e := id_unique hids hd hel h
      subst this
      simp [diveKey, patchDive, hekey.1, hekey.2]
    · rw [if_neg h]
  refine ⟨?_, ?_, ?_⟩
  · rw [atMostOnePerKey, List.pairwise_map]
    refine (hkeys.imp_of_mem ?_)
    intro d1 d2 h1 h2 hns hcontra
    apply hns
    rw [sameKey_iff] at hcontra ⊢
    rw [hkey_pt d1 h1, hkey_pt d2 h2] at hcontra
    exact hcontra
  · rw [List.pairwise_map]
    refine hids.imp ?_
    intro d1 d2 hne
    rw [hid_pt d1, hid_pt d2]
    exact hne
  · intro d hd
    obtain ⟨d0, hd0, rfl⟩ := List.mem_map.mp hd
    rw [hid_pt d0]
    exact hbound d0 hd0

/-- The insert branch preserves well-formedness of the store. -/
theorem WF_insert (db : DB) (a : DiveArgs) (now : Int)
    (hWF : WF db) (hfind : queryByKey db a.user_id a.dive_number = []) :
    WF { records := db.records ++ [insertDive a now db.nextId],
         nextId := db.nextId + 1 } := by
  obtain ⟨hkeys, hids, hbound⟩ := hWF
  have hnone : ∀ d ∈ db.records, ¬ (keyMatches a.user_id a.dive_number d = true) := by
    intro d hd hm
    have : d ∈ db.records.filter (keyMatches a.user_id a.dive_number) :=
      List.mem_filter.mpr ⟨hd, hm⟩
    rw [show db.records.filter (keyMatches a.user_id a.dive_number) = [] from hfind] at this
    cases this
  refine ⟨?_, ?_, ?_⟩
  · rw [atMostOnePerKey, List.pairwise_append]
    refine ⟨hkeys, List.pairwise_singleton _ _, ?_⟩
    intro d hd b hb hsk
    rcases List.mem_singleton.mp hb with rfl
    apply hnone d hd
    rw [keyMatches_iff]
    obtain ⟨h1, h2⟩ := hsk
    refine ⟨h1.trans ?_, h2.trans ?_⟩ <;> simp [insertDive]
  · rw [List.pairwise_append]
    refine ⟨hids, List.pairwise_singleton _ _, ?_⟩
    intro d hd b hb
    rcases List.mem_singleton.mp hb with rfl
    have : d._id < db.nextId := hbound d hd
    simp only [insertDive]
    omega
  · intro d hd
    rcases List.mem_append.mp hd with hd' | hd'
    · exact Nat.lt_succ_of_lt (hbound d hd')
    · rcases List.mem_singleton.mp hd' with rfl
      simp [insertDive]

/-- Under well-formedness the handler never throws, and well-formedness is
preserved. -/
theorem upsert_total_WF (db : DB) (a : DiveArgs) (now : Int) (hWF : WF db) :
    ∃ db' r, upsertDive a now db = .ok (db', r) ∧ WF db' := by
  rcases filter_atMostOne a.user_id a.dive_number db.records hWF.1 with hnil | ⟨e, he⟩
  · exact ⟨_, _, upsert_notfound_eq db a now hnil, WF_insert db a now hWF hnil⟩
  · exact ⟨_, _, upsert_found_eq db a now e he, WF_patch db a now e hWF he⟩

/-! ### Claim theorems about `upsertDive` -/

/-- C1: when the `(owner, sequence number)` key matches an existing record,
`upsertDive` patches the supplied fields onto that record, sets
`updated_at` to the current time, leaves `logged_at` exactly as it was,
and returns `{ action := "updated" }` with the existing record's id; the
store afterwards holds exactly one record for the key (and no record was
added or removed). -/
theorem upsert_updates_existing (db : DB) (a : DiveArgs) (now : Int) (e : Dive)
    (hWF : WF db) (hfind : queryByKey db a.user_id a.dive_number = [e]) :
    ∃ db', upsertDive a now db = .ok (db', { id := e._id, action := "updated" }) ∧
      queryByKey db' a.user_id a.dive_number = [patchDive e a now] ∧
      (patchDive e a now).logged_at = e.logged_at ∧
      (patchDive e a now).updated_at = now ∧
      db'.records.length = db.records.length := by
  refine ⟨_, upsert_found_eq db a now e hfind, ?_, rfl, rfl, ?_⟩
  · exact filter_map_patch a.user_id a.dive_number db.records e _ hfind hWF.2.1
      (patchDive_keyMatches e a now) rfl
  · exact List.length_map _ _

/-- C2: when no record matches the key, `upsertDive` inserts a new record
whose `logged_at` and `updated_at` are both the same current-time value,
and returns `{ action := "inserted" }` with the new record's id; a
subsequent lookup of the key returns exactly that record. -/
theorem upsert_inserts_new (db : DB) (a : DiveArgs) (now : Int)
    (hfind : queryByKey db a.user_id a.dive_number = []) :
    ∃ db', upsertDive a now db = .ok (db', { id := db.nextId, action := "inserted" }) ∧
      db'.records = db.records ++ [insertDive a now db.nextId] ∧
      queryByKey db' a.user_id a.dive_number = [insertDive a now db.nextId] ∧
      (insertDive a now db.nextId).logged_at = now ∧
      (insertDive a now db.nextId).updated_at = now ∧
      (insertDive a now db.nextId)._id = db.nextId := by
  refine ⟨_, upsert_notfound_eq db a now hfind, rfl, ?_, rfl, rfl, rfl⟩
  show (db.records ++ [insertDive a now db.nextId]).filter
        (keyMatches a.user_id a.dive_number) = _
  rw [List.filter_append,
      show db.records.filter (keyMatches a.user_id a.dive_number) = [] from hfind,
      List.filter_singleton, insertDive_keyMatches]
  rfl

/-- C3: starting from a well-formed store (at most one record per
`(owner, sequence number)` key, distinct ids), any finite sequence of
upserts runs without a `.unique()` error and leaves the store with at most
one record per key. -/
theorem upsert_sequence_key_unique (ops : List (DiveArgs × Int)) (db : DB)
    (hWF : WF db) :
    ∃ db', runUpserts ops db = .ok db' ∧ atMostOnePerKey db'.records := by
  suffices h : ∃ db', runUpserts ops db = .ok db' ∧ WF db' by
    obtain ⟨db', h1, h2⟩ := h
    exact ⟨db', h1, h2.1⟩
  induction ops generalizing db with
  | nil => exact ⟨db, rfl, hWF⟩
  | cons op ops ih =>
    obtain ⟨a, t⟩ := op
    obtain ⟨db1, r, hok, hWF1⟩ := upsert_total_WF db a t hWF
    obtain ⟨db', hrun, hWF'⟩ := ih db1 hWF1
    refine ⟨db', ?_, hWF'⟩
    show (match upsertDive a t db with
          | Except.error e => Except.error e
          | Except.ok (db', _) => runUpserts ops db') = Except.ok db'
    rw [hok]
    exact hrun

/-- C5: a second upsert on the same key that omits an optional field (here
`notes`) leaves the value stored by the first upsert untouched
(partial-update semantics). -/
theorem upsert_preserves_omitted_notes (db : DB) (a1 a2 : DiveArgs)
    (t1 t2 : Int) (s : String) (db1 db2 : DB) (r1 r2 : UpsertOutcome)
    (hWF : WF db) (hfresh : queryByKey db a1.user_id a1.dive_number = [])
    (hkey1 : a2.user_id = a1.user_id) (hkey2 : a2.dive_number = a1.dive_number)
    (hnotes1 : a1.notes = some s) (hnotes2 : a2.notes = none)
    (h1 : upsertDive a1 t1 db = .ok (db1, r1))
    (h2 : upsertDive a2 t2 db1 = .ok (db2, r2)) :
    ∃ d, queryByKey db2 a1.user_id a1.dive_number = [d] ∧ d.notes = some s := by
  rw [upsert_notfound_eq db a1 t1 hfresh] at h1
  simp only [Except.ok.injEq, Prod.mk.injEq] at h1
  obtain ⟨hdb1, -⟩ := h1
  subst hdb1
  set new1 := insertDive a1 t1 db.nextId with hnew1
  have hWF1 : WF { records := db.records ++ [new1], nextId := db.nextId + 1 } :=
    WF_insert db a1 t1 hWF hfresh
  have hfind1 : queryByKey { records := db.records ++ [new1], nextId := db.nextId + 1 }
      a2.user_id a2.dive_number = [new1] := by
    show (db.records ++ [new1]).filter (keyMatches a2.user_id a2.dive_number) = _
    rw [hkey1, hkey2, List.filter_append,
        show db.records.filter (keyMatches a1.user_id a1.dive_number) = [] from hfresh,
        List.filter_singleton, hnew1, insertDive_keyMatches]
    rfl
  rw [upsert_found_eq _ a2 t2 new1 hfind1] at h2
  simp only [Except.ok.injEq, Prod.mk.injEq] at h2
  obtain ⟨hdb2, -⟩ := h2
  subst hdb2
  refine ⟨patchDive new1 a2 t2, ?_, ?_⟩
  · have := filter_map_patch a2.user_id a2.dive_number (db.records ++ [new1])
      new1 (patchDive new1 a2 t2) hfind1 hWF1.2.1 (patchDive_keyMatches new1 a2 t2) rfl
    rw [← hkey1, ← hkey2]
    exact this
  · show (patchDive new1 a2 t2).notes = some s
    simp only [patchDive, hnotes2]
    show new1.notes = some s
    simp [hnew1, insertDive, hnotes1]

/-- C4 amended: the handler never rejects a submission that passed the
Convex argument validator — whatever the numeric values (including
`duration ≤ 0`, `max_depth < 0`, `dive_number ≤ 0`), the upsert succeeds
and the store afterwards holds a record with the submission's key,
duration and depth. -/
theorem upsert_accepts_out_of_range (db : DB) (a : DiveArgs) (now : Int)
    (hWF : WF db) :
    ∃ db' r, upsertDive a now db = .ok (db', r) ∧
      ∃ d ∈ db'.records, d.user_id = a.user_id ∧ d.dive_number = a.dive_number ∧
        d.duration = a.duration ∧ d.max_depth = a.max_depth := by
  rcases filter_atMostOne a.user_id a.dive_number db.records hWF.1 with hnil | ⟨e, he⟩
  · refine ⟨_, _, upsert_notfound_eq db a now hnil,
      insertDive a now db.nextId, ?_, ?_⟩
    · exact List.mem_append_right _ (List.mem_singleton.mpr rfl)
    · refine ⟨rfl, rfl, rfl, rfl⟩
  · refine ⟨_, _, upsert_found_eq db a now e he, patchDive e a now, ?_, ?_⟩
    · have hel : e ∈ db.records := by
        have : e ∈ db.records.filter (keyMatches a.user_id a.dive_number) := by
          rw [show db.records.filter (keyMatches a.user_id a.dive_number) = [e] from he]
          exact List.mem_cons_self _ _
        exact (List.mem_filter.mp this).1
      have hmem := List.mem_map_of_mem
        (fun d => if d._id = e._id then patchDive e a now else d) hel
      simpa only [if_pos rfl] using hmem
    · refine ⟨rfl, rfl, rfl, rfl⟩

/-! ### Concrete store scenarios (witness data) -/

/-- A fully-populated sample submission, following §8.7 of the spec. -/
def sampleArgs : DiveArgs :=
  { user_id := "u1"
    dive_number := 1
    dive_date := 1700000000
    location := "Blue Corner, Palau"
    latitude := some 7
    longitude := some 134
    osm_link := none
    site := some "Blue Corner"
    duration := 45
    max_depth := 18
    temperature := some 28
    visibility := some 20
    weather := some "sunny"
    suit_thickness := some 3
    lead_weights := some 4
    club_name := "Fish n Fins"
    instructor_name := "J. Doe"
    photo_storage_id := "photo-1"
    club_website := none
    notes := some "first"
    Buddy_check := true
    Briefed := true }

/-- The same key resubmitted with a changed duration and no `notes`. -/
def sampleArgs2 : DiveArgs :=
  { sampleArgs with duration := 50, notes := none }

/-- A submission with an out-of-range duration (`duration: -1`). -/
def negArgs : DiveArgs :=
  { sampleArgs with duration := -1 }

def emptyDB : DB := { records := [], nextId := 0 }

def sampleDive : Dive := insertDive sampleArgs 100 0

def sampleDB : DB := { records := [sampleDive], nextId := 1 }

/-- C4 counterexample: a submission with `duration: -1` (all required
attributes present) is not rejected — the handler reports `inserted` and
the record, negative duration included, is in the store afterwards.  The
handler contains no `ValidationError` path at all. -/
theorem upsert_no_validation_cex :
    upsertDive negArgs 100 emptyDB =
      .ok ({ records := [insertDive negArgs 100 0], nextId := 1 },
           { id := 0, action := "inserted" }) ∧
    (insertDive negArgs 100 0).duration = -1 ∧
    (insertDive negArgs 100 0).logged_at = 100 :=
  ⟨rfl, rfl, rfl⟩

/-- Witness for `upsert_updates_existing` (C1) at a concrete store. -/
theorem upsert_updates_existing_witness :
    ∃ db', upsertDive sampleArgs2 200 sampleDB =
        .ok (db', { id := sampleDive._id, action := "updated" }) ∧
      queryByKey db' sampleArgs2.user_id sampleArgs2.dive_number
        = [patchDive sampleDive sampleArgs2 200] ∧
      (patchDive sampleDive sampleArgs2 200).logged_at = sampleDive.logged_at ∧
      (patchDive sampleDive sampleArgs2 200).updated_at = 200 ∧
      db'.records.length = sampleDB.records.length :=
  upsert_updates_existing sampleDB sampleArgs2 200 sampleDive (by decide) (by decide)

/-- Witness for `upsert_inserts_new` (C2) at the empty store. -/
theorem upsert_inserts_new_witness :
    ∃ db', upsertDive sampleArgs 100 emptyDB =
        .ok (db', { id := emptyDB.nextId, action := "inserted" }) ∧
      db'.records = emptyDB.records ++ [insertDive sampleArgs 100 emptyDB.nextId] ∧
      queryByKey db' sampleArgs.user_id sampleArgs.dive_number
        = [insertDive sampleArgs 100 emptyDB.nextId] ∧
      (insertDive sampleArgs 100 emptyDB.nextId).logged_at = 100 ∧
      (insertDive sampleArgs 100 emptyDB.nextId).updated_at = 100 ∧
      (insertDive sampleArgs 100 emptyDB.nextId)._id = emptyDB.nextId :=
  upsert_inserts_new emptyDB sampleArgs 100 (by decide)

/-- Witness for `upsert_sequence_key_unique` (C3): two submissions of the
same key starting from the empty store. -/
theorem upsert_sequence_key_unique_witness :
    ∃ db', runUpserts [(sampleArgs, 100), (sampleArgs2, 200)] emptyDB = .ok db' ∧
      atMostOnePerKey db'.records :=
  upsert_sequence_key_unique [(sampleArgs, 100), (sampleArgs2, 200)] emptyDB (by decide)

/-- Witness for `upsert_preserves_omitted_notes` (C5): the first call sets
`notes := "first"`, the second call omits `notes`; the stored record still
carries `notes = "first"`. -/
theorem upsert_preserves_omitted_notes_witness :
    ∃ d, queryByKey { records := [patchDive sampleDive sampleArgs2 200], nextId := 1 }
        sampleArgs.user_id sampleArgs.dive_number = [d] ∧ d.notes = some "first" :=
  upsert_preserves_omitted_notes emptyDB sampleArgs sampleArgs2 100 200 "first"
    sampleDB { records := [patchDive sampleDive sampleArgs2 200], nextId := 1 }
    { id := 0, action := "inserted" } { id := 0, action := "updated" }
    (by decide) (by decide) rfl rfl rfl rfl rfl rfl

/-- Witness for `upsert_accepts_out_of_range` (C4 amended) at the concrete
out-of-range submission. -/
theorem upsert_accepts_out_of_range_witness :
    ∃ db' r, upsertDive negArgs 100 emptyDB = .ok (db', r) ∧
      ∃ d ∈ db'.records, d.user_id = negArgs.user_id ∧
        d.dive_number = negArgs.dive_number ∧
        d.duration = negArgs.duration ∧ d.max_depth = negArgs.max_depth :=
  upsert_accepts_out_of_range emptyDB negArgs 100 (by decide)

/-! ### Claim theorems about the resolvers -/

/-- C6 counterexample: with an empty (or all-whitespace) club name —
even paired with a perfectly good provider response — `searchClubWebsite`
returns `null` (`none`), the very value that also encodes "no match";
no `InvalidQuery` error exists (the function's type has no error case:
its `catch` swallows every exception). -/
theorem searchClubWebsite_empty_name_cex :
    searchClubWebsite "" (ApiResponse.ok true (some "https://divers.example")) = none ∧
    searchClubWebsite "   " (ApiResponse.ok true (some "https://divers.example")) = none ∧
    searchClubWebsite "unknown club zzz" (ApiResponse.ok false none) = none := by
  refine ⟨by decide, by decide, by decide⟩

/-- C6 amended: an empty or all-whitespace club name makes
`searchClubWebsite` return `absent` (`null`) without consulting the
provider — the same outcome as a no-match result, not a distinct error. -/
theorem searchClubWebsite_empty_name_absent (clubName : String)
    (resp : ApiResponse) (h : clubName = "" ∨ jsLength (jsTrim clubName) = 0) :
    searchClubWebsite clubName resp = none := by
  unfold searchClubWebsite
  rcases h with rfl | h
  · simp
  · simp [h]

/-- Witness for `searchClubWebsite_empty_name_absent` (C6 amended). -/
theorem searchClubWebsite_empty_name_absent_witness :
    (("   " : String) = "" ∨ jsLength (jsTrim "   ") = 0) ∧
    searchClubWebsite "   " ApiResponse.netError = none :=
  ⟨Or.inr (by decide),
   searchClubWebsite_empty_name_absent "   " ApiResponse.netError (Or.inr (by decide))⟩

/-- C7: with the API key configured, a forward-geocode query that is empty
or whose trimmed length is below 2 returns the empty candidate list with
no error — the guard precedes any network call, so the provider response
is irrelevant. -/
theorem searchLocation_short_query (k : String) (query : String)
    (resp : GeoResponse) (h : query = "" ∨ jsLength (jsTrim query) < 2) :
    searchLocation (some k) query resp = .ok [] := by
  unfold searchLocation
  rcases h with rfl | h
  · simp
  · simp [h]

/-- Witness for `searchLocation_short_query` (C7): the single-character
query of spec §8.5. -/
theorem searchLocation_short_query_witness :
    (("a" : String) = "" ∨ jsLength (jsTrim "a") < 2) ∧
    searchLocation (some "key") "a" GeoResponse.netError = .ok [] :=
  ⟨Or.inr (by decide),
   searchLocation_short_query "key" "a" GeoResponse.netError (Or.inr (by decide))⟩

/-- C8: with the API key configured, a successful provider response with
zero matches makes `reverseGeocode` return `absent` (`null`) and not an
error; an error is raised exactly when the transport fails or the provider
answers with a non-ok status. -/
theorem reverseGeocode_zero_matches (k : String) :
    reverseGeocode (some k) (GeoResponse.ok []) = .ok none ∧
    ∀ resp : GeoResponse,
      (∃ e, reverseGeocode (some k) resp = .error e) ↔
        (resp = GeoResponse.netError ∨ ∃ st, resp = GeoResponse.httpError st) := by
  refine ⟨rfl, ?_⟩
  intro resp
  constructor
  · rintro ⟨e, he⟩
    cases resp with
    | netError => exact Or.inl rfl
    | httpError st => exact Or.inr ⟨st, rfl⟩
    | ok features =>
        cases features with
        | nil => simp [reverseGeocode] at he
        | cons f fs => simp [reverseGeocode] at he
  · rintro (rfl | ⟨st, rfl⟩)
    · exact ⟨"network error", rfl⟩
    · exact ⟨_, rfl⟩

/-- Witness for `reverseGeocode_zero_matches` (C8). -/
theorem reverseGeocode_zero_matches_witness :
    reverseGeocode (some "key") (GeoResponse.ok []) = .ok none ∧
    ∃ e, reverseGeocode (some "key") GeoResponse.netError = .error e :=
  ⟨(reverseGeocode_zero_matches "key").1,
   ((reverseGeocode_zero_matches "key").2 GeoResponse.netError).mpr (Or.inl rfl)⟩

/-- C9 counterexample: when the first organic anchor's href is a bare
domain (no scheme, no redirect wrapper), the route returns it unchanged —
not as a fully-qualified URL; the claimed https-defaulting is what the
(unused-on-this-path) `formatUrl` helper would have produced. -/
theorem searchRoute_bare_domain_cex :
    searchRouteUrl { resultAnchorHref := some "example.com", resultUrlText := none }
      = some "example.com" ∧
    isFullyQualified "example.com" = false ∧
    formatUrl "example.com" = "https://example.com" := by
  refine ⟨by decide, by decide, by decide⟩

/-- C9 amended: the route unwraps redirect-wrapper (`uddg`) links to the
decoded target and gives protocol-relative (`//`) links the `https`
scheme; the https-default for scheme-less values applies on the fallback
`result__url` path and in the client-side `formatUrl` helper, while a
bare-domain href on the primary path is returned without a scheme. -/
theorem searchRoute_url_normalization :
    (∀ href cap, matchUddg href = some cap →
        processResultAnchor href = fixProtocolRelative (percentDecode cap)) ∧
    (∀ href, matchUddg href = none → jsStartsWith href "//" = true →
        processResultAnchor href = "https://" ++ jsDrop href 2) ∧
    (∀ href, matchUddg href = none → jsStartsWith href "//" = false →
        processResultAnchor href = href) ∧
    (∀ txt, jsStartsWith (jsTrim txt) "http" = false →
        processResultUrlText txt = "https://" ++ jsTrim txt) ∧
    (∀ url, url ≠ "" → jsStartsWith (jsTrim url) "http://" = false →
        jsStartsWith (jsTrim url) "https://" = false →
        formatUrl url = "https://" ++ jsTrim url) := by
  refine ⟨?_, ?_, ?_, ?_, ?_⟩
  · intro href cap h
    simp [processResultAnchor, unwrapDdgRedirect, h]
  · intro href h h2
    simp [processResultAnchor, unwrapDdgRedirect, fixProtocolRelative, h, h2]
  · intro href h h2
    simp [processResultAnchor, unwrapDdgRedirect, fixProtocolRelative, h, h2]
  · intro txt h
    simp [processResultUrlText, h]
  · intro url h h1 h2
    simp [formatUrl, h, h1, h2]

/-- Witness for `searchRoute_url_normalization` (C9 amended): a wrapped
redirect link, a protocol-relative link, a fallback bare domain, and the
client helper, each at a concrete input. -/
theorem searchRoute_url_normalization_witness :
    processResultAnchor "https://duckduckgo.com/l/?uddg=https%3A%2F%2Fexample.com&rut=x"
      = "https://example.com" ∧
    processResultAnchor "//example.com" = "https://example.com" ∧
    processResultUrlText " example.com " = "https://example.com" ∧
    formatUrl "example.com" = "https://example.com" := by
  refine ⟨?_, ?_, ?_, ?_⟩
  · rw [searchRoute_url_normalization.1 _ "https%3A%2F%2Fexample.com" (by decide)]
    decide
  · rw [searchRoute_url_normalization.2.1 _ (by decide) (by decide)]
    decide
  · rw [searchRoute_url_normalization.2.2.2.1 _ (by decide)]
    decide
  · rw [searchRoute_url_normalization.2.2.2.2 _ (by decide) (by decide) (by decide)]
    decide


/-! ### The statistics query (`src/convex/dives.ts`, second module)

The second module of `dives.ts` works against the camelCase schema of
`convex/schema.ts`; `getDiveStats` reads only `userId`, `duration` and
`maxDepth`, but the full document shape is kept. -/

/-- A `dives` document per `convex/schema.ts` (camelCase variant). -/
structure DiveDoc where
  userId : String
  diveNumber : Option Int
  diveDate : Int
  location : String
  latitude : Option Int
  longitude : Option Int
  site : Option String
  duration : Int
  maxDepth : Int
  temperature : Option Int
  waterType : String
  visibility : Option Int
  weather : Option String
  suitThickness : Option Int
  leadWeights : Option Int
  clubName : Option String
  clubWebsite : Option String
  instructorName : Option String
  notes : Option String
  photoStorageId : Option String
  buddyIds : List String
  equipment : List String
  loggedAt : Int
  updatedAt : Int
deriving DecidableEq, Repr

/-- `getDives`: the `by_userId` index query collecting a user's dives. -/
def getDives (userId : String) (table : List DiveDoc) : List DiveDoc :=
  table.filter fun d => d.userId = userId

/-- The result object of `getDiveStats`. -/
structure DiveStats where
  totalDives : Nat
  maxDepth : Int
  totalTime : Int
deriving DecidableEq, Repr

/-- `Math.max(...xs)` on a non-empty argument list (the source guards the
empty case before spreading; the `[]` value here is never reached). -/
def mathMax : List Int → Int
  | [] => 0
  | x :: xs => xs.foldl max x

/-- `getDiveStats` from the second module of `src/convex/dives.ts`. -/
def getDiveStats (userId : String) (table : List DiveDoc) : DiveStats :=
  let dives := getDives userId table
  if dives.length = 0 then
    { totalDives := 0, maxDepth := 0, totalTime := 0 }
  else
    { totalDives := dives.length
      maxDepth := mathMax (dives.map fun d => d.maxDepth)
      totalTime := dives.foldl (fun sum d => sum + d.duration) 0 }

/-! #### Fold lemmas for the statistics -/

theorem le_foldl_max (xs : List Int) (x : Int) : x ≤ xs.foldl max x := by
  induction xs generalizing x with
  | nil => exact le_refl x
  | cons y ys ih => exact le_trans (le_max_left x y) (ih (max x y))

theorem mem_le_foldl_max (xs : List Int) (x : Int) :
    ∀ v ∈ xs, v ≤ xs.foldl max x := by
  induction xs generalizing x with
  | nil => intro v hv; cases hv
  | cons y ys ih =>
    intro v hv
    rcases List.mem_cons.mp hv with rfl | hv'
    · exact le_trans (le_max_right x v) (le_foldl_max ys (max x v))
    · exact ih (max x y) v hv'

theorem foldl_max_cases (xs : List Int) (x : Int) :
    xs.foldl max x = x ∨ xs.foldl max x ∈ xs := by
  induction xs generalizing x with
  | nil => exact Or.inl rfl
  | cons y ys ih =>
    rcases ih (max x y) with h | h
    · rcases max_choice x y with hm | hm
      · exact Or.inl (by rw [List.foldl_cons, h, hm])
      · refine Or.inr ?_
        rw [List.foldl_cons, h, hm]
        exact List.mem_cons_self _ _
    · exact Or.inr (List.mem_cons_of_mem _ h)

theorem foldl_add_duration (l : List DiveDoc) (acc : Int) :
    l.foldl (fun sum d => sum + d.duration) acc
      = acc + (l.map fun d => d.duration).sum := by
  induction l generalizing acc with
  | nil => simp
  | cons d l ih =>
    rw [List.foldl_cons, ih, List.map_cons, List.sum_cons]
    ring

theorem mathMax_mem (l : List Int) (h : l ≠ []) : mathMax l ∈ l := by
  cases l with
  | nil => exact absurd rfl h
  | cons y ys =>
    show ys.foldl max y ∈ y :: ys
    rcases foldl_max_cases ys y with h' | h'
    · rw [h']; exact List.mem_cons_self _ _
    · exact List.mem_cons_of_mem _ h'

theorem mathMax_ub (l : List Int) : ∀ v ∈ l, v ≤ mathMax l := by
  intro v hv
  cases l with
  | nil => cases hv
  | cons y ys =>
    show v ≤ ys.foldl max y
    rcases List.mem_cons.mp hv with rfl | hv'
    · exact le_foldl_max ys v
    · exact mem_le_foldl_max ys y v hv'

/-- C10: for every owner, `getDiveStats` returns the number of the owner's
stored dives as `totalDives`, the sum of their durations as `totalTime`,
and the maximum of their `maxDepth` values as `maxDepth` (an element of the
list that bounds every element); with no stored dives it returns all
zeros. -/
theorem getDiveStats_characterization (userId : String) (table : List DiveDoc) :
    (getDiveStats userId table).totalDives = (getDives userId table).length ∧
    (getDiveStats userId table).totalTime
      = ((getDives userId table).map fun d => d.duration).sum ∧
    (getDives userId table = [] →
      getDiveStats userId table = { totalDives := 0, maxDepth := 0, totalTime := 0 }) ∧
    (getDives userId table ≠ [] →
      (getDiveStats userId table).maxDepth
          ∈ (getDives userId table).map (fun d => d.maxDepth) ∧
      ∀ v ∈ (getDives userId table).map (fun d => d.maxDepth),
        v ≤ (getDiveStats userId table).maxDepth) := by
  by_cases hnil : getDives userId table = []
  · refine ⟨?_, ?_, fun _ => ?_, fun hne => absurd hnil hne⟩ <;>
      simp [getDiveStats, hnil]
  · have hlen : (getDives userId table).length ≠ 0 :=
      fun h => hnil (List.length_eq_zero.mp h)
    have htime : (getDiveStats userId table).totalTime
        = (getDives userId table).foldl (fun sum d => sum + d.duration) 0 := by
      simp [getDiveStats, hlen]
    have hmax : (getDiveStats userId table).maxDepth
        = mathMax ((getDives userId table).map fun d => d.maxDepth) := by
      simp [getDiveStats, hlen]
    have hmapnil : (getDives userId table).map (fun d => d.maxDepth) ≠ [] := by
      intro h
      exact hnil (List.map_eq_nil_iff.mp h)
    refine ⟨?_, ?_, fun h => absurd h hnil, fun _ => ⟨?_, ?_⟩⟩
    · simp [getDiveStats, hlen]
    · rw [htime, foldl_add_duration]
      ring
    · rw [hmax]
      exact mathMax_mem _ hmapnil
    · intro v hv
      rw [hmax]
      exact mathMax_ub _ v hv

/-- Two sample documents for the concrete statistics witness. -/
def demoDoc1 : DiveDoc :=
  { userId := "u1", diveNumber := some 1, diveDate := 1700000000
    location := "Blue Corner", latitude := some 7, longitude := some 134
    site := some "Blue Corner", duration := 45, maxDepth := 18
    temperature := some 28, waterType := "saltwater", visibility := some 20
    weather := some "sunny", suitThickness := some 3, leadWeights := some 4
    clubName := some "Fish n Fins", clubWebsite := none
    instructorName := some "J. Doe", notes := none, photoStorageId := none
    buddyIds := [], equipment := [], loggedAt := 100, updatedAt := 100 }

def demoDoc2 : DiveDoc :=
  { demoDoc1 with diveNumber := some 2, duration := 30, maxDepth := 30 }

def demoTable : List DiveDoc := [demoDoc1, demoDoc2]

/-- Witness for `getDiveStats_characterization` (C10) on a two-dive
store. -/
theorem getDiveStats_characterization_witness :
    getDives "u1" demoTable ≠ [] ∧
    (getDiveStats "u1" demoTable).totalDives = (getDives "u1" demoTable).length ∧
    (getDiveStats "u1" demoTable).totalTime
      = ((getDives "u1" demoTable).map fun d => d.duration).sum ∧
    (getDiveStats "u1" demoTable).maxDepth
      ∈ (getDives "u1" demoTable).map (fun d => d.maxDepth) :=
  ⟨by decide,
   (getDiveStats_characterization "u1" demoTable).1,
   (getDiveStats_characterization "u1" demoTable).2.1,
   ((getDiveStats_characterization "u1" demoTable).2.2.2 (by decide)).1⟩

end DiveLog
